import Mathlib

/-!
Verification of the CONSO2B GSTR-2B consolidation tool (src/CONSO2B.py).

The embedding models cells as `Option String`: `none` stands for an absent
cell (Python `None` or a float NaN produced by pandas when reading with
`dtype=str`), `some s` for a text cell.  Python's `str.strip` and
`str.lower` are modelled by `pyStrip` and `pyLower`, and the Python
substring test `pat in s` by `strContains`.  pandas DataFrames appear as a
header (list of column names) plus a list of rows; `dropna`, `fillna`,
`pd.concat(ignore_index=True, sort=False)` and `DataFrame.insert` are
modelled by their documented behaviour on such tables.
-/

namespace Conso2B

/-- Model of Python `str.strip` on a character list: drop whitespace from
both ends. -/
def stripList (l : List Char) : List Char :=
  ((l.dropWhile Char.isWhitespace).reverse.dropWhile Char.isWhitespace).reverse

/-- Model of Python `str.strip`. -/
def pyStrip (s : String) : String := ⟨stripList s.data⟩

/-- Model of Python `str.lower`. -/
def pyLower (s : String) : String := ⟨s.data.map Char.toLower⟩

/-- `headMatches pat l` is true when `pat` occurs at the start of `l`. -/
def headMatches : List Char → List Char → Bool
  | [], _ => true
  | _ :: _, [] => false
  | p :: ps, c :: cs => p == c && headMatches ps cs

/-- `occursIn pat l` is true when `pat` occurs contiguously anywhere in `l`. -/
def occursIn (pat : List Char) : List Char → Bool
  | [] => headMatches pat []
  | c :: cs => headMatches pat (c :: cs) || occursIn pat cs

/-- Model of the Python substring test `pat in s`. -/
def strContains (s pat : String) : Bool := occursIn pat.data s.data

/-- The synthetic column name produced by `sanitize_column_name`,
Python `f"Column_{index}"`. -/
def columnName (index : Nat) : String := "Column_" ++ Nat.repr index

/-- `sanitize_column_name` from src/CONSO2B.py (lines 169-180): absent
cells (None or NaN), and strings that after stripping are empty or
lower-case to "nan" or "none", become the synthetic `Column_{index}`;
every other value is returned stripped. -/
def sanitize_column_name (col : Option String) (index : Nat) : String :=
  match col with
  | none => columnName index
  | some s =>
    let t := pyStrip s
    if t = "" ∨ pyLower t = "nan" ∨ pyLower t = "none" then columnName index
    else t

/-- Recursion of `make_unique_columns`: `seen` is the Python dict mapping a
sanitized name to its repeat counter (association list, most recent binding
first), `idx` the running position index. -/
def makeUniqueGo : List (Option String) → Nat → List (String × Nat) → List String
  | [], _, _ => []
  | col :: rest, idx, seen =>
    let clean := sanitize_column_name col idx
    match seen.lookup clean with
    | none => clean :: makeUniqueGo rest (idx + 1) ((clean, 0) :: seen)
    | some k => (clean ++ "_" ++ Nat.repr (k + 1)) :: makeUniqueGo rest (idx + 1) ((clean, k + 1) :: seen)

/-- `make_unique_columns` from src/CONSO2B.py (lines 182-201). -/
def make_unique_columns (cols : List (Option String)) : List String :=
  makeUniqueGo cols 0 []

/-- A finished table: column names plus rows of text cells (a pandas
DataFrame after all NaN cells have been filled). -/
structure Table where
  header : List String
  rows : List (List String)
deriving DecidableEq, Repr

/-- Cell `j` of a raw row; rows shorter than the frame width are padded
with absent cells, as pandas does. -/
def cellAt (r : List (Option String)) (j : Nat) : Option String := r.getD j none

/-- A data row is dropped by `dropna(axis=0, how='all')` when every cell in
the frame's `ncols` columns is absent. -/
def rowAllAbsent (ncols : Nat) (r : List (Option String)) : Bool :=
  (List.range ncols).all fun j => (cellAt r j).isNone

/-- A column is dropped by `dropna(axis=1, how='all')` when every
(remaining) data cell in it is absent; the column label plays no part. -/
def colAllAbsent (rows : List (List (Option String))) (j : Nat) : Bool :=
  rows.all fun r => (cellAt r j).isNone

/-- Indices of the columns kept by `dropna(axis=1, how='all')`. -/
def keptCols (n : Nat) (rows : List (List (Option String))) : List Nat :=
  (List.range n).filter fun j => !(colAllAbsent rows j)

/-- `clean_dataframe` from src/CONSO2B.py (lines 203-220): drop all-absent
rows, then all-absent columns, fill remaining absent cells with "-",
reset the index, and re-run `make_unique_columns` on the header. -/
def clean_dataframe (header : List String) (rows : List (List (Option String))) : Table :=
  let n := header.length
  let rows1 := rows.filter fun r => !(rowAllAbsent n r)
  let keep := keptCols n rows1
  { header := make_unique_columns ((keep.map fun j => header.getD j "").map some)
    rows := rows1.map fun r => keep.map fun j => (cellAt r j).getD "-" }

/-- A raw grid as read with `header=None, dtype=str`: a frame width and
rows of optional text cells. -/
structure RawGrid where
  ncols : Nat
  rows : List (List (Option String))
deriving DecidableEq, Repr

/-- Cell `(i, j)` of a raw grid. -/
def gridCell (g : RawGrid) (i j : Nat) : Option String := cellAt (g.rows.getD i []) j

/-- The marker test of `check_two_row_header`: some cell of row index 4
(read through `fillna("")`), lower-cased, contains "invoice details" or
"tax details". -/
def two_row_marker (g : RawGrid) : Bool :=
  (List.range g.ncols).any fun j =>
    let t := pyLower ((gridCell g 4 j).getD "")
    strContains t "invoice details" || strContains t "tax details"

/-- Per-position header combination of `check_two_row_header` (lines
242-255).  `sanitize_column_name` always returns a non-empty string, so
the Python truthiness tests on `main` and `sub` reduce to the
comparisons against `Column_{i}`. -/
def combineAt (m s : Option String) (i : Nat) : String :=
  let main := sanitize_column_name m i
  let sub := sanitize_column_name s i
  if main ≠ columnName i ∧ sub ≠ columnName i then main ++ "_" ++ sub
  else if main ≠ columnName i then main
  else if sub ≠ columnName i then sub
  else columnName i

/-- The combined two-row header, one name per column position.  Rows 4 and
5 are read through `fillna("")`; `sanitize_column_name` sends `some ""`
and `none` to the same synthetic name, so the filled and unfilled reads
agree. -/
def combined_headers (g : RawGrid) : List String :=
  (List.range g.ncols).map fun i => combineAt (gridCell g 4 i) (gridCell g 5 i) i

/-- `check_two_row_header` from src/CONSO2B.py (lines 225-267): decline on
grids of fewer than 6 rows or without the marker; otherwise combine rows 4
and 5 into a header, take the data from row index 6 on, and clean. -/
def check_two_row_header (g : RawGrid) : Option Table :=
  if g.rows.length < 6 then none
  else if two_row_marker g then
    some (clean_dataframe (make_unique_columns ((combined_headers g).map some)) (g.rows.drop 6))
  else none

/-- The per-row test of `find_header_row`: some present cell, lower-cased,
contains the lower-cased search text. -/
def row_has_marker (search : String) (r : List (Option String)) : Bool :=
  r.any fun c =>
    match c with
    | none => false
    | some s => strContains (pyLower s) (pyLower search)

/-- The scan loop of `find_header_row`, positions `i, i+1, ...` with the
given amount of fuel remaining. -/
def findHeaderAux (search : String) (rows : List (List (Option String))) (i : Nat) : Nat → Option Nat
  | 0 => none
  | fuel + 1 =>
    if row_has_marker search (rows.getD i []) then some i
    else findHeaderAux search rows (i + 1) fuel

/-- The default search text of `find_header_row`. -/
def defaultSearchText : String := "GSTIN of supplier"

/-- `find_header_row` from src/CONSO2B.py (lines 269-282): scan the first
`min 20 rowCount` rows for the search text. -/
def find_header_row (g : RawGrid) (search : String) : Option Nat :=
  findHeaderAux search g.rows 0 (min 20 g.rows.length)

/-- Outcome of `read_file_with_header` for one (file, sheet) pair: a
loaded table, or a raised exception.  The file parsing itself is an
external pandas concern; `consolidate_data` only observes this outcome. -/
inductive ReadOutcome where
  | ok (t : Table)
  | err (msg : String)
deriving DecidableEq

/-- One uploaded file as `consolidate_data` sees it: its name, the sheet
names `get_sheet_names` reports for it, and the outcome of reading each
sheet. -/
structure FileData where
  name : String
  sheets : List String
  read : String → ReadOutcome

/-- pandas `DataFrame.empty`: true when either axis has length zero. -/
def table_empty (t : Table) : Bool := t.rows.isEmpty || t.header.isEmpty

/-- The two `df.insert` calls of `consolidate_data` (lines 394-395).
pandas `DataFrame.insert` raises ValueError when the column already
exists, so the insertion is fallible. -/
def insert_provenance (fname sname : String) (t : Table) : Except String Table :=
  if "SourceFile" ∈ t.header then Except.error "cannot insert SourceFile, already exists"
  else if "SheetName" ∈ t.header then Except.error "cannot insert SheetName, already exists"
  else Except.ok { header := "SourceFile" :: "SheetName" :: t.header
                   rows := t.rows.map fun r => fname :: sname :: r }

/-- The body of the inner loop of `consolidate_data` (lines 377-404) for
one (file, sheet) pair: skip missing sheets, skip failed reads, skip empty
tables, otherwise tag with provenance and append to the accumulator.  The
per-pair try block turns every failure into a log entry and a skip. -/
def process_pair (acc : List Table) (f : FileData) (sheet : String) : List Table :=
  if sheet ∈ f.sheets then
    match f.read sheet with
    | ReadOutcome.err _ => acc
    | ReadOutcome.ok t =>
      if table_empty t then acc
      else
        match insert_provenance f.name sheet t with
        | Except.error _ => acc
        | Except.ok t2 => acc ++ [t2]
  else acc

/-- The double loop of `consolidate_data`: files outer, selected sheets
inner, accumulating loaded tables. -/
def accumulate (files : List FileData) (sheets : List String) : List Table :=
  files.foldl (fun acc f => sheets.foldl (fun acc2 s => process_pair acc2 f s) acc) []

/-- The contribution of a single (file, sheet) pair to the accumulator:
`some` table exactly when the pair is accumulated. -/
def pair_result (f : FileData) (sheet : String) : Option Table :=
  if sheet ∈ f.sheets then
    match f.read sheet with
    | ReadOutcome.err _ => none
    | ReadOutcome.ok t =>
      if table_empty t then none
      else
        match insert_provenance f.name sheet t with
        | Except.error _ => none
        | Except.ok t2 => some t2
  else none

/-- One step of the first-occurrence column union of
`pd.concat(sort=False)`: append a column name unless already present. -/
def unionInner (acc : List String) (c : String) : List String :=
  if c ∈ acc then acc else acc ++ [c]

/-- The column index of `pd.concat(ignore_index=True, sort=False)`: the
union of all headers, ordered by first occurrence across accumulation
order. -/
def union_cols (ts : List Table) : List String :=
  ts.foldl (fun acc t => t.header.foldl unionInner acc) []

/-- Reindexing of one row to the union columns, as `pd.concat` followed by
`fillna('-')` does: a column absent from the row's own header yields the
sentinel. -/
def reindex_row (cols hdr : List String) (r : List String) : List String :=
  cols.map fun c => r.getD (hdr.indexOf c) "-"

deriving instance DecidableEq for Except

/-- The error pandas raises when it must align a frame whose column labels
contain a duplicate. -/
def dupErrMsg : String := "cannot reindex from a duplicate axis"

/-- The error pandas raises on concatenating an empty list of frames
(unreachable from `consolidate_data`, which guards the accumulator). -/
def noObjectsMsg : String := "No objects to concatenate"

/-- True when every frame has exactly the same column list as the first:
`pd.concat`'s no-alignment fast path applies, so the column labels are
kept as they are - duplicates included - and no cell is filled. -/
def same_headers : List Table → Bool
  | [] => true
  | t0 :: rest => rest.all fun t => t.header == t0.header

/-- True when some frame's column list contains a duplicate label. -/
def hasDupHeader (ts : List Table) : Bool :=
  ts.any fun t => !(decide t.header.Nodup)

/-- `pd.concat(all_dataframes, ignore_index=True, sort=False)` followed by
`fillna('-')` (lines 413-416).  When every frame has the same columns,
pandas stacks the rows without touching the labels, so duplicate labels
survive into the result.  Otherwise every frame is aligned to the
first-occurrence union of the columns; that alignment raises when any
frame's labels contain a duplicate (duplicate-labeled headers are
reachable, see `make_unique_duplicate_bug`), and otherwise a column
absent from a frame is filled with the sentinel. -/
def concat_tables (ts : List Table) : Except String Table :=
  match ts with
  | [] => Except.error noObjectsMsg
  | t0 :: rest =>
    if same_headers (t0 :: rest) then
      Except.ok { header := t0.header, rows := (t0 :: rest).flatMap Table.rows }
    else if hasDupHeader (t0 :: rest) then Except.error dupErrMsg
    else
      Except.ok { header := union_cols (t0 :: rest)
                  rows := (t0 :: rest).flatMap fun t =>
                    t.rows.map (reindex_row (union_cols (t0 :: rest)) t.header) }

/-- The message of the exception raised when nothing was accumulated. -/
def noDataMsg : String := "No data could be loaded from the selected files and sheets"

/-- `consolidate_data` from src/CONSO2B.py (lines 358-420), after file IO
has been abstracted into `FileData`: accumulate per-pair tables; raise
when the accumulator is empty, otherwise concatenate - and an exception
raised by the concatenation itself propagates out of the function. -/
def consolidate_data (files : List FileData) (sheets : List String) : Except String Table :=
  let acc := accumulate files sheets
  if acc.isEmpty then Except.error noDataMsg
  else concat_tables acc

/-- The column-selection update of `page_consolidate` (lines 942-947):
append a newly checked column, remove an unchecked one unless it is a
provenance column. -/
def update_selection (selected : List String) (col : String) (isSelected : Bool) : List String :=
  if isSelected = true ∧ col ∉ selected then selected ++ [col]
  else if isSelected = false ∧ col ∈ selected then
    if col = "SourceFile" ∨ col = "SheetName" then selected
    else selected.erase col
  else selected

/-- The export column order of `page_consolidate` (line 977): the
original column order restricted to the selected set. -/
def export_column_order (originalOrder selected : List String) : List String :=
  originalOrder.filter fun c => decide (c ∈ selected)

/-! ### Character and string lemmas -/

theorem dropWhile_of_all_false {p : Char → Bool} :
    ∀ {l : List Char}, (∀ c ∈ l, p c = false) → l.dropWhile p = l
  | [], _ => rfl
  | c :: cs, h => by
    rw [List.dropWhile_cons, h c (List.mem_cons_self c cs)]
    simp

theorem stripList_eq_self {l : List Char} (h : ∀ c ∈ l, c.isWhitespace = false) :
    stripList l = l := by
  unfold stripList
  rw [dropWhile_of_all_false h,
    dropWhile_of_all_false (fun c hc => h c (List.mem_reverse.mp hc)),
    List.reverse_reverse]

theorem digitChar_not_ws (m : Nat) : (Nat.digitChar m).isWhitespace = false := by
  by_cases h : m < 16
  · have hb : ∀ k, k < 16 → (Nat.digitChar k).isWhitespace = false := by decide
    exact hb m h
  · unfold Nat.digitChar
    repeat rw [if_neg (by omega)]
    decide

theorem toDigitsCore_shape : ∀ (fuel n : Nat) (ds : List Char),
    ∃ l, Nat.toDigitsCore 10 fuel n ds = l ++ ds ∧ ∀ c ∈ l, ∃ m, c = Nat.digitChar m := by
  intro fuel
  induction fuel with
  | zero => exact fun n ds => ⟨[], rfl, by simp⟩
  | succ fuel ih =>
    intro n ds
    show ∃ l, (if n / 10 = 0 then Nat.digitChar (n % 10) :: ds
        else Nat.toDigitsCore 10 fuel (n / 10) (Nat.digitChar (n % 10) :: ds)) = l ++ ds ∧
        ∀ c ∈ l, ∃ m, c = Nat.digitChar m
    by_cases h0 : n / 10 = 0
    · rw [if_pos h0]
      refine ⟨[Nat.digitChar (n % 10)], rfl, ?_⟩
      intro c hc
      rw [List.mem_singleton] at hc
      exact ⟨n % 10, hc⟩
    · rw [if_neg h0]
      obtain ⟨l, hl, hc⟩ := ih (n / 10) (Nat.digitChar (n % 10) :: ds)
      refine ⟨l ++ [Nat.digitChar (n % 10)], ?_, ?_⟩
      · rw [hl, List.append_assoc]
        rfl
      · intro c hc2
        rcases List.mem_append.mp hc2 with h | h
        · exact hc c h
        · rw [List.mem_singleton] at h
          exact ⟨n % 10, h⟩

theorem toDigits_ne_nil (n : Nat) : Nat.toDigits 10 n ≠ [] := by
  show (if n / 10 = 0 then [Nat.digitChar (n % 10)]
      else Nat.toDigitsCore 10 n (n / 10) [Nat.digitChar (n % 10)]) ≠ []
  by_cases h0 : n / 10 = 0
  · rw [if_pos h0]
    simp
  · rw [if_neg h0]
    obtain ⟨l, hl, -⟩ := toDigitsCore_shape n (n / 10) [Nat.digitChar (n % 10)]
    rw [hl]
    simp

theorem toDigits_digit_chars (n : Nat) :
    ∀ c ∈ Nat.toDigits 10 n, ∃ m, c = Nat.digitChar m := by
  obtain ⟨l, hl, hc⟩ := toDigitsCore_shape (n + 1) n []
  intro c hcmem
  rw [show Nat.toDigits 10 n = Nat.toDigitsCore 10 (n + 1) n [] from rfl, hl,
    List.append_nil] at hcmem
  exact hc c hcmem

theorem columnName_data (i : Nat) :
    (columnName i).data =
      'C' :: 'o' :: 'l' :: 'u' :: 'm' :: 'n' :: '_' :: Nat.toDigits 10 i := by
  show ("Column_" ++ Nat.repr i).data = _
  rw [String.data_append]
  rfl

theorem columnName_chars_not_ws (i : Nat) :
    ∀ c ∈ (columnName i).data, c.isWhitespace = false := by
  intro c hc
  rw [columnName_data] at hc
  simp only [List.mem_cons] at hc
  rcases hc with rfl | rfl | rfl | rfl | rfl | rfl | rfl | h
  · decide
  · decide
  · decide
  · decide
  · decide
  · decide
  · decide
  · obtain ⟨m, rfl⟩ := toDigits_digit_chars i c h
    exact digitChar_not_ws m

theorem columnName_data_length (i : Nat) : 8 ≤ (columnName i).data.length := by
  rw [columnName_data]
  simp only [List.length_cons]
  cases h : Nat.toDigits 10 i with
  | nil => exact absurd h (toDigits_ne_nil i)
  | cons a l =>
    simp only [List.length_cons]
    omega

theorem pyStrip_columnName (i : Nat) : pyStrip (columnName i) = columnName i := by
  show (⟨stripList (columnName i).data⟩ : String) = columnName i
  rw [stripList_eq_self (columnName_chars_not_ws i)]

theorem columnName_ne_empty (i : Nat) : columnName i ≠ "" := by
  intro h
  have h0 : (columnName i).data.length = 0 := by rw [h]; rfl
  have h8 := columnName_data_length i
  omega

theorem pyLower_columnName_ne (i : Nat) (s : String) (hs : s.data.length < 8) :
    pyLower (columnName i) ≠ s := by
  intro h
  have hlen : (pyLower (columnName i)).data.length = s.data.length := by rw [h]
  rw [show (pyLower (columnName i)).data = (columnName i).data.map Char.toLower from rfl,
    List.length_map] at hlen
  have h8 := columnName_data_length i
  omega

theorem sanitize_none_eq (i : Nat) : sanitize_column_name none i = columnName i := rfl

theorem sanitize_some_eq (s : String) (i : Nat) :
    sanitize_column_name (some s) i =
      if pyStrip s = "" ∨ pyLower (pyStrip s) = "nan" ∨ pyLower (pyStrip s) = "none"
      then columnName i else pyStrip s := rfl

theorem sanitize_columnName (i : Nat) :
    sanitize_column_name (some (columnName i)) i = columnName i := by
  rw [sanitize_some_eq]
  simp only [pyStrip_columnName]
  rw [if_neg]
  rintro (h | h | h)
  · exact columnName_ne_empty i h
  · exact pyLower_columnName_ne i "nan" (by decide) h
  · exact pyLower_columnName_ne i "none" (by decide) h

theorem makeUniqueGo_length :
    ∀ (cols : List (Option String)) (idx : Nat) (seen : List (String × Nat)),
      (makeUniqueGo cols idx seen).length = cols.length
  | [], _, _ => rfl
  | col :: rest, idx, seen => by
    unfold makeUniqueGo
    cases h : seen.lookup (sanitize_column_name col idx) with
    | none => simp [h, makeUniqueGo_length rest]
    | some k => simp [h, makeUniqueGo_length rest]

theorem make_unique_length (cols : List (Option String)) :
    (make_unique_columns cols).length = cols.length :=
  makeUniqueGo_length cols 0 []

/-! ### Claim theorems for the column-name normalizer -/

/-- C7: for every raw value and position index, `sanitize_column_name`
returns a non-empty string; it returns the synthetic `Column_{index}` when
the value is absent (None or a float NaN, both modelled as `none`) or when
the stripped string is empty or lower-cases to "nan" or "none"; every
other value passes through stripped and otherwise unchanged. -/
theorem sanitize_spec :
    (∀ (c : Option String) (i : Nat), sanitize_column_name c i ≠ "") ∧
    (∀ i : Nat, sanitize_column_name none i = columnName i) ∧
    (∀ (s : String) (i : Nat),
      (pyStrip s = "" ∨ pyLower (pyStrip s) = "nan" ∨ pyLower (pyStrip s) = "none") →
      sanitize_column_name (some s) i = columnName i) ∧
    (∀ (s : String) (i : Nat),
      pyStrip s ≠ "" → pyLower (pyStrip s) ≠ "nan" → pyLower (pyStrip s) ≠ "none" →
      sanitize_column_name (some s) i = pyStrip s) := by
  refine ⟨?_, sanitize_none_eq, ?_, ?_⟩
  · intro c i
    cases c with
    | none => exact columnName_ne_empty i
    | some s =>
      rw [sanitize_some_eq]
      by_cases h : pyStrip s = "" ∨ pyLower (pyStrip s) = "nan" ∨ pyLower (pyStrip s) = "none"
      · rw [if_pos h]
        exact columnName_ne_empty i
      · rw [if_neg h]
        exact fun he => h (Or.inl he)
  · intro s i h
    rw [sanitize_some_eq, if_pos h]
  · intro s i h1 h2 h3
    rw [sanitize_some_eq, if_neg]
    rintro (h | h | h)
    · exact h1 h
    · exact h2 h
    · exact h3 h

/-- Witness for C7: a padded ordinary string passes through stripped. -/
theorem sanitize_spec_witness :
    sanitize_column_name (some "  Foo  ") 0 = pyStrip "  Foo  " :=
  sanitize_spec.2.2.2 "  Foo  " 0 (by decide) (by decide) (by decide)

/-- C2 (code bug): `make_unique_columns` is documented to make column
labels unique, but a raw name equal to an already-emitted suffixed name is
emitted verbatim, so the output can contain duplicates. -/
theorem make_unique_duplicate_bug :
    make_unique_columns [some "A", some "A", some "A_1"] = ["A", "A_1", "A_1"] ∧
    ¬ (make_unique_columns [some "A", some "A", some "A_1"]).Nodup := by
  constructor
  · decide
  · decide

/-- C10: in the two-row header combination, a genuine cell whose text is
exactly the synthetic `Column_{i}` at position `i` is indistinguishable
from an absent cell - it sanitizes to `Column_{i}`, combines exactly as an
absent cell does (hence is never joined with the other row's text), and
when both rows hold that text the emitted name is the synthetic
`Column_{i}`. -/
theorem two_row_synthetic_placeholder :
    (∀ i : Nat, sanitize_column_name (some (columnName i)) i = columnName i) ∧
    (∀ (i : Nat) (s : Option String),
      combineAt (some (columnName i)) s i = combineAt none s i) ∧
    (∀ i : Nat, combineAt (some (columnName i)) (some (columnName i)) i = columnName i) := by
  refine ⟨sanitize_columnName, ?_, ?_⟩
  · intro i s
    unfold combineAt
    simp only [sanitize_columnName, sanitize_none_eq]
  · intro i
    unfold combineAt
    simp only [sanitize_columnName]
    simp

/-! ### Lemmas about the table cleaner -/

theorem rowAllAbsent_iff (n : Nat) (r : List (Option String)) :
    rowAllAbsent n r = true ↔ ∀ j, j < n → cellAt r j = none := by
  unfold rowAllAbsent
  rw [List.all_eq_true]
  constructor
  · intro h j hj
    exact Option.isNone_iff_eq_none.mp (h j (List.mem_range.mpr hj))
  · intro h j hj
    exact Option.isNone_iff_eq_none.mpr (h j (List.mem_range.mp hj))

theorem keptCols_mem (n : Nat) (rows : List (List (Option String))) (j : Nat) :
    j ∈ keptCols n rows ↔ j < n ∧ ∃ r ∈ rows, (cellAt r j).isSome = true := by
  unfold keptCols
  rw [List.mem_filter, List.mem_range]
  constructor
  · rintro ⟨hj, hcol⟩
    refine ⟨hj, ?_⟩
    rw [Bool.not_eq_true'] at hcol
    unfold colAllAbsent at hcol
    rw [List.all_eq_false] at hcol
    obtain ⟨r, hr, hrb⟩ := hcol
    refine ⟨r, hr, ?_⟩
    cases hc : cellAt r j <;> simp [hc] at hrb ⊢
  · rintro ⟨hj, r, hr, hsome⟩
    refine ⟨hj, ?_⟩
    rw [Bool.not_eq_true']
    unfold colAllAbsent
    rw [List.all_eq_false]
    refine ⟨r, hr, ?_⟩
    cases hc : cellAt r j <;> simp [hc] at hsome ⊢

theorem clean_rows_eq (hdr : List String) (rows : List (List (Option String))) :
    (clean_dataframe hdr rows).rows =
      (rows.filter fun r => !(rowAllAbsent hdr.length r)).map fun r =>
        (keptCols hdr.length (rows.filter fun r2 => !(rowAllAbsent hdr.length r2))).map
          fun j => (cellAt r j).getD "-" := rfl

theorem clean_header_eq (hdr : List String) (rows : List (List (Option String))) :
    (clean_dataframe hdr rows).header =
      make_unique_columns
        (((keptCols hdr.length (rows.filter fun r => !(rowAllAbsent hdr.length r))).map
          fun j => hdr.getD j "").map some) := rfl

theorem clean_rows_header_indep (hdr hdr2 : List String) (rows : List (List (Option String)))
    (h : hdr.length = hdr2.length) :
    (clean_dataframe hdr rows).rows = (clean_dataframe hdr2 rows).rows := by
  rw [clean_rows_eq, clean_rows_eq, h]

theorem clean_header_length (hdr : List String) (rows : List (List (Option String))) :
    (clean_dataframe hdr rows).header.length =
      (keptCols hdr.length (rows.filter fun r => !(rowAllAbsent hdr.length r))).length := by
  rw [clean_header_eq, make_unique_length]
  simp [List.length_map]

theorem clean_rect (hdr : List String) (rows : List (List (Option String)))
    (r : List String) (hr : r ∈ (clean_dataframe hdr rows).rows) :
    r.length = (clean_dataframe hdr rows).header.length := by
  rw [clean_rows_eq] at hr
  obtain ⟨r0, hr0, rfl⟩ := List.mem_map.mp hr
  rw [clean_header_length, List.length_map]

/-- C5: the cleaning step drops exactly the data rows whose every cell is
absent, then exactly the columns whose every remaining data cell is absent
(the header value alone never preserves or drops a column), fills every
remaining absent cell with "-", re-applies `make_unique_columns` to the
header, and reindexes the kept rows; rows of the result are rectangular
plain strings, so no absent cell remains. -/
theorem clean_dataframe_spec :
    (∀ (n : Nat) (r : List (Option String)),
      rowAllAbsent n r = true ↔ ∀ j, j < n → cellAt r j = none) ∧
    (∀ (n : Nat) (rows : List (List (Option String))) (j : Nat),
      j ∈ keptCols n rows ↔ j < n ∧ ∃ r ∈ rows, (cellAt r j).isSome = true) ∧
    (∀ (hdr : List String) (rows : List (List (Option String))),
      (clean_dataframe hdr rows).rows =
        (rows.filter fun r => !(rowAllAbsent hdr.length r)).map fun r =>
          (keptCols hdr.length (rows.filter fun r2 => !(rowAllAbsent hdr.length r2))).map
            fun j => (cellAt r j).getD "-") ∧
    (∀ (hdr : List String) (rows : List (List (Option String))),
      (clean_dataframe hdr rows).header =
        make_unique_columns
          (((keptCols hdr.length (rows.filter fun r => !(rowAllAbsent hdr.length r))).map
            fun j => hdr.getD j "").map some)) ∧
    (∀ (hdr hdr2 : List String) (rows : List (List (Option String))),
      hdr.length = hdr2.length →
      (clean_dataframe hdr rows).rows = (clean_dataframe hdr2 rows).rows) ∧
    (∀ (hdr : List String) (rows : List (List (Option String))) (r : List String),
      r ∈ (clean_dataframe hdr rows).rows →
      r.length = (clean_dataframe hdr rows).header.length) :=
  ⟨rowAllAbsent_iff, keptCols_mem, clean_rows_eq, clean_header_eq,
    clean_rows_header_indep, clean_rect⟩

/-- Witness for C5: the data decides what is kept, the header values do
not. -/
theorem clean_dataframe_spec_witness :
    (clean_dataframe ["x"] [[some "v"]]).rows = (clean_dataframe ["y"] [[some "v"]]).rows :=
  clean_dataframe_spec.2.2.2.2.1 ["x"] ["y"] [[some "v"]] (by decide)

/-! ### Lemmas about the two-row header strategy -/

theorem combined_headers_length (g : RawGrid) : (combined_headers g).length = g.ncols := by
  unfold combined_headers
  rw [List.length_map, List.length_range]

/-- A grid whose two-row header is detected, but whose only data row has
an absent cell in column 1, so cleaning drops that column. -/
def c3grid : RawGrid :=
  ⟨2, [[], [], [], [], [some "Invoice Details", some "z"], [some "a", some "b"],
    [some "1", none]]⟩

/-- A grid whose two-row header is detected and whose data row is fully
present. -/
def c3gridFull : RawGrid :=
  ⟨2, [[], [], [], [], [some "Tax Details", some "z"], [some "a", some "b"],
    [some "1", some "2"]]⟩

/-- C3 counterexample: on `c3grid` the two-row strategy fires, but the
resulting table has 1 header while the input grid has 2 columns, because
the all-absent column is dropped by `clean_dataframe`. -/
theorem check_two_row_header_counterexample :
    check_two_row_header c3grid = some ⟨["Invoice Details_a"], [["1"]]⟩ ∧
    (["Invoice Details_a"] : List String).length ≠ c3grid.ncols := by
  constructor
  · decide
  · decide

/-- C3 (amended): the two-row strategy declines on grids of fewer than 6
rows or without the marker in row index 4; when it fires it combines rows
4 and 5 per position via `combineAt`, takes the data rows from input row
index 6 on, and - provided every column position has a present cell in
some data row - the resulting table's header count equals the input
column count.  (Without that proviso, cleaning drops all-absent columns,
as the counterexample shows.) -/
theorem check_two_row_header_spec :
    (∀ g : RawGrid, g.rows.length < 6 → check_two_row_header g = none) ∧
    (∀ g : RawGrid, two_row_marker g = false → check_two_row_header g = none) ∧
    (∀ g : RawGrid, 6 ≤ g.rows.length → two_row_marker g = true →
      check_two_row_header g =
        some (clean_dataframe (make_unique_columns ((combined_headers g).map some))
          (g.rows.drop 6))) ∧
    (∀ g : RawGrid, 6 ≤ g.rows.length → two_row_marker g = true →
      (∀ j ∈ List.range g.ncols, ∃ r ∈ g.rows.drop 6, (cellAt r j).isSome = true) →
      ∃ t, check_two_row_header g = some t ∧ t.header.length = g.ncols) := by
  have hmain : ∀ g : RawGrid, 6 ≤ g.rows.length → two_row_marker g = true →
      check_two_row_header g =
        some (clean_dataframe (make_unique_columns ((combined_headers g).map some))
          (g.rows.drop 6)) := by
    intro g h6 hm
    unfold check_two_row_header
    rw [if_neg (by omega), if_pos hm]
  refine ⟨?_, ?_, hmain, ?_⟩
  · intro g h6
    unfold check_two_row_header
    rw [if_pos h6]
  · intro g hm
    unfold check_two_row_header
    by_cases h6 : g.rows.length < 6
    · rw [if_pos h6]
    · rw [if_neg h6, if_neg (by simp [hm])]
  · intro g h6 hm hcols
    refine ⟨_, hmain g h6 hm, ?_⟩
    have hlen : (make_unique_columns ((combined_headers g).map some)).length = g.ncols := by
      rw [make_unique_length, List.length_map, combined_headers_length]
    rw [clean_header_length, hlen]
    have hkeep : keptCols g.ncols
        ((g.rows.drop 6).filter fun r => !(rowAllAbsent g.ncols r)) = List.range g.ncols := by
      unfold keptCols
      rw [List.filter_eq_self]
      intro j hj
      have hjn : j < g.ncols := List.mem_range.mp hj
      obtain ⟨r, hr, hsome⟩ := hcols j hj
      have hrmem : r ∈ (g.rows.drop 6).filter fun r2 => !(rowAllAbsent g.ncols r2) := by
        rw [List.mem_filter]
        refine ⟨hr, ?_⟩
        rw [Bool.not_eq_true']
        unfold rowAllAbsent
        rw [List.all_eq_false]
        refine ⟨j, List.mem_range.mpr hjn, ?_⟩
        cases hc : cellAt r j <;> simp [hc] at hsome ⊢
      rw [Bool.not_eq_true']
      unfold colAllAbsent
      rw [List.all_eq_false]
      refine ⟨r, hrmem, ?_⟩
      cases hc : cellAt r j <;> simp [hc] at hsome ⊢
    rw [hkeep, List.length_range]

/-- Witness for C3: on `c3gridFull` the strategy fires and keeps both
columns. -/
theorem check_two_row_header_spec_witness :
    ∃ t, check_two_row_header c3gridFull = some t ∧ t.header.length = c3gridFull.ncols :=
  check_two_row_header_spec.2.2.2 c3gridFull (by decide) (by decide) (by decide)

/-! ### Lemmas about the marker-row scan -/

theorem findHeaderAux_zero (search : String) (rows : List (List (Option String))) (i : Nat) :
    findHeaderAux search rows i 0 = none := rfl

theorem findHeaderAux_succ (search : String) (rows : List (List (Option String)))
    (i fuel : Nat) :
    findHeaderAux search rows i (fuel + 1) =
      if row_has_marker search (rows.getD i []) then some i
      else findHeaderAux search rows (i + 1) fuel := rfl

theorem findHeaderAux_some (search : String) (rows : List (List (Option String))) :
    ∀ (fuel i k : Nat), findHeaderAux search rows i fuel = some k →
      i ≤ k ∧ k < i + fuel ∧ row_has_marker search (rows.getD k []) = true ∧
      ∀ m, i ≤ m → m < k → row_has_marker search (rows.getD m []) = false := by
  intro fuel
  induction fuel with
  | zero =>
    intro i k h
    rw [findHeaderAux_zero] at h
    cases h
  | succ fuel ih =>
    intro i k h
    rw [findHeaderAux_succ] at h
    by_cases hm : row_has_marker search (rows.getD i []) = true
    · rw [if_pos hm] at h
      injection h with h
      subst h
      exact ⟨Nat.le_refl i, by omega, hm, fun m h1 h2 => absurd h1 (by omega)⟩
    · rw [if_neg hm] at h
      obtain ⟨h1, h2, h3, h4⟩ := ih (i + 1) k h
      refine ⟨by omega, by omega, h3, ?_⟩
      intro m hm1 hm2
      by_cases he : m = i
      · subst he
        cases hb : row_has_marker search (rows.getD m []) with
        | false => rfl
        | true => exact absurd hb hm
      · exact h4 m (by omega) hm2

theorem findHeaderAux_none (search : String) (rows : List (List (Option String))) :
    ∀ (fuel i : Nat), findHeaderAux search rows i fuel = none →
      ∀ m, i ≤ m → m < i + fuel → row_has_marker search (rows.getD m []) = false := by
  intro fuel
  induction fuel with
  | zero => intro i _ m h1 h2; omega
  | succ fuel ih =>
    intro i h m h1 h2
    rw [findHeaderAux_succ] at h
    by_cases hm : row_has_marker search (rows.getD i []) = true
    · rw [if_pos hm] at h
      cases h
    · rw [if_neg hm] at h
      by_cases he : m = i
      · subst he
        cases hb : row_has_marker search (rows.getD m []) with
        | false => rfl
        | true => exact absurd hb hm
      · exact ih (i + 1) h m (by omega) (by omega)

theorem findHeaderAux_none_of (search : String) (rows : List (List (Option String))) :
    ∀ (fuel i : Nat),
      (∀ m, i ≤ m → m < i + fuel → row_has_marker search (rows.getD m []) = false) →
      findHeaderAux search rows i fuel = none := by
  intro fuel
  induction fuel with
  | zero => intro i _; rfl
  | succ fuel ih =>
    intro i h
    rw [findHeaderAux_succ, if_neg, ih (i + 1) (fun m h1 h2 => h m (by omega) (by omega))]
    rw [h i (Nat.le_refl i) (by omega)]
    simp

/-- A grid with the default marker text in row index 3. -/
def c4grid : RawGrid :=
  ⟨1, [[], [], [], [some "GSTIN of Supplier"], [some "x"]]⟩

/-- C4: `find_header_row` scans only the first `min 20 rowCount` rows and
returns the smallest index of a row containing a cell whose lower-cased
text contains the lower-cased search text (default "GSTIN of supplier");
when no row within the bound matches it returns none. -/
theorem find_header_row_spec :
    defaultSearchText = "GSTIN of supplier" ∧
    (∀ (g : RawGrid) (search : String) (i : Nat), find_header_row g search = some i →
      i < min 20 g.rows.length ∧ row_has_marker search (g.rows.getD i []) = true ∧
      ∀ k, k < i → row_has_marker search (g.rows.getD k []) = false) ∧
    (∀ (g : RawGrid) (search : String), find_header_row g search = none →
      ∀ k, k < min 20 g.rows.length → row_has_marker search (g.rows.getD k []) = false) ∧
    (∀ (g : RawGrid) (search : String),
      (∀ k, k < min 20 g.rows.length → row_has_marker search (g.rows.getD k []) = false) →
      find_header_row g search = none) := by
  refine ⟨rfl, ?_, ?_, ?_⟩
  · intro g search i h
    obtain ⟨h1, h2, h3, h4⟩ := findHeaderAux_some search g.rows (min 20 g.rows.length) 0 i h
    exact ⟨by omega, h3, fun k hk => h4 k (by omega) hk⟩
  · intro g search h k hk
    exact findHeaderAux_none search g.rows (min 20 g.rows.length) 0 h k (by omega) (by omega)
  · intro g search h
    exact findHeaderAux_none_of search g.rows (min 20 g.rows.length) 0
      (fun m _ h2 => h m (by omega))

/-- Witness for C4: on `c4grid` the scan returns row index 3, the marker
row, and no earlier row matches. -/
theorem find_header_row_spec_witness :
    3 < min 20 c4grid.rows.length ∧
    row_has_marker defaultSearchText (c4grid.rows.getD 3 []) = true ∧
    ∀ k, k < 3 → row_has_marker defaultSearchText (c4grid.rows.getD k []) = false :=
  find_header_row_spec.2.1 c4grid defaultSearchText 3 (by decide)

/-! ### Lemmas about the consolidation engine -/

theorem insert_provenance_ok (fname sname : String) (t t2 : Table)
    (h : insert_provenance fname sname t = Except.ok t2) :
    t2.header = "SourceFile" :: "SheetName" :: t.header ∧
    t2.rows = t.rows.map fun r => fname :: sname :: r := by
  unfold insert_provenance at h
  split_ifs at h with h1 h2
  injection h with h
  subst h
  exact ⟨rfl, rfl⟩

theorem pair_result_eq_some (f : FileData) (s : String) (t : Table)
    (h : pair_result f s = some t) :
    s ∈ f.sheets ∧ ∃ t0, f.read s = ReadOutcome.ok t0 ∧ table_empty t0 = false ∧
      insert_provenance f.name s t0 = Except.ok t := by
  by_cases hs : s ∈ f.sheets
  · refine ⟨hs, ?_⟩
    cases hr : f.read s with
    | err m =>
      simp only [pair_result, hr, if_pos hs] at h
      exact Option.noConfusion h
    | ok t0 =>
      by_cases he : table_empty t0 = true
      · simp only [pair_result, hr, if_pos hs, if_pos he] at h
        exact Option.noConfusion h
      · cases hi : insert_provenance f.name s t0 with
        | error m =>
          simp only [pair_result, hr, hi, if_pos hs, if_neg he] at h
          exact Option.noConfusion h
        | ok t2 =>
          simp only [pair_result, hr, hi, if_pos hs, if_neg he, Option.some.injEq] at h
          refine ⟨t0, rfl, ?_, ?_⟩
          · rw [← Bool.not_eq_true]
            exact he
          · rw [hi, h]
  · simp only [pair_result, if_neg hs] at h
    exact Option.noConfusion h


theorem process_pair_eq (acc : List Table) (f : FileData) (s : String) :
    process_pair acc f s = acc ++ (pair_result f s).toList := by
  by_cases hs : s ∈ f.sheets
  · cases hr : f.read s with
    | err m => simp [process_pair, pair_result, hr, hs]
    | ok t0 =>
      by_cases he : table_empty t0 = true
      · simp [process_pair, pair_result, hr, hs, he]
      · cases hi : insert_provenance f.name s t0 with
        | error m => simp [process_pair, pair_result, hr, hs, he, hi]
        | ok t2 => simp [process_pair, pair_result, hr, hs, he, hi]
  · simp [process_pair, pair_result, hs]

theorem foldl_process_pair (f : FileData) :
    ∀ (sheets : List String) (acc : List Table),
      sheets.foldl (fun acc2 s => process_pair acc2 f s) acc =
        acc ++ sheets.filterMap (pair_result f) := by
  intro sheets
  induction sheets with
  | nil => intro acc; simp
  | cons s ss ih =>
    intro acc
    rw [List.foldl_cons, process_pair_eq, ih]
    cases hr : pair_result f s with
    | none => simp [List.filterMap_cons, hr]
    | some t => simp [List.filterMap_cons, hr]

theorem accumulate_eq (files : List FileData) (sheets : List String) :
    accumulate files sheets = files.flatMap fun f => sheets.filterMap (pair_result f) := by
  unfold accumulate
  have hgen : ∀ (fs : List FileData) (acc : List Table),
      fs.foldl (fun acc2 f => sheets.foldl (fun acc3 s => process_pair acc3 f s) acc2) acc =
        acc ++ fs.flatMap fun f => sheets.filterMap (pair_result f) := by
    intro fs
    induction fs with
    | nil => intro acc; simp
    | cons f fs2 ih =>
      intro acc
      rw [List.foldl_cons, foldl_process_pair, ih, List.flatMap_cons, List.append_assoc]
  rw [hgen files []]
  simp

theorem accumulate_eq_nil_iff (files : List FileData) (sheets : List String) :
    accumulate files sheets = [] ↔ ∀ f ∈ files, ∀ s ∈ sheets, pair_result f s = none := by
  rw [accumulate_eq, List.flatMap_eq_nil_iff]
  constructor
  · intro h f hf s hs
    have h2 := h f hf
    rw [List.filterMap_eq_nil_iff] at h2
    exact h2 s hs
  · intro h f hf
    rw [List.filterMap_eq_nil_iff]
    exact fun s hs => h f hf s hs

theorem consolidate_eq_concat_of_ne_nil (files : List FileData) (sheets : List String)
    (h : accumulate files sheets ≠ []) :
    consolidate_data files sheets = concat_tables (accumulate files sheets) := by
  unfold consolidate_data
  rw [if_neg]
  intro hc
  exact h (List.isEmpty_iff.mp hc)

theorem concat_tables_fast (t0 : Table) (rest : List Table)
    (h : same_headers (t0 :: rest) = true) :
    concat_tables (t0 :: rest) =
      Except.ok { header := t0.header, rows := (t0 :: rest).flatMap Table.rows } := by
  simp only [concat_tables]
  rw [if_pos h]

theorem concat_tables_dup (t0 : Table) (rest : List Table)
    (h1 : same_headers (t0 :: rest) = false) (h2 : hasDupHeader (t0 :: rest) = true) :
    concat_tables (t0 :: rest) = Except.error dupErrMsg := by
  simp only [concat_tables]
  rw [if_neg (by simp [h1]), if_pos h2]

theorem concat_tables_union (t0 : Table) (rest : List Table)
    (h1 : same_headers (t0 :: rest) = false) (h2 : hasDupHeader (t0 :: rest) = false) :
    concat_tables (t0 :: rest) =
      Except.ok { header := union_cols (t0 :: rest)
                  rows := (t0 :: rest).flatMap fun t =>
                    t.rows.map (reindex_row (union_cols (t0 :: rest)) t.header) } := by
  simp only [concat_tables]
  rw [if_neg (by simp [h1]), if_neg (by simp [h2])]

theorem unionInner_pos {acc : List String} {c : String} (h : c ∈ acc) :
    unionInner acc c = acc := by
  unfold unionInner
  rw [if_pos h]

theorem unionInner_neg {acc : List String} {c : String} (h : c ∉ acc) :
    unionInner acc c = acc ++ [c] := by
  unfold unionInner
  rw [if_neg h]

theorem mem_unionInner (acc : List String) (c a : String) :
    a ∈ unionInner acc c ↔ a ∈ acc ∨ a = c := by
  unfold unionInner
  split_ifs with h
  · constructor
    · exact Or.inl
    · rintro (ha | rfl)
      · exact ha
      · exact h
  · rw [List.mem_append, List.mem_singleton]

theorem foldl_unionInner_mem :
    ∀ (h : List String) (acc : List String) (a : String),
      a ∈ h.foldl unionInner acc ↔ a ∈ acc ∨ a ∈ h := by
  intro h
  induction h with
  | nil => simp
  | cons c cs ih =>
    intro acc a
    rw [List.foldl_cons, ih, mem_unionInner, List.mem_cons]
    tauto

theorem foldl_unionInner_shape :
    ∀ (h : List String) (acc : List String), ∃ tl, h.foldl unionInner acc = acc ++ tl := by
  intro h
  induction h with
  | nil => exact fun acc => ⟨[], by simp⟩
  | cons c cs ih =>
    intro acc
    rw [List.foldl_cons]
    by_cases hc : c ∈ acc
    · rw [unionInner_pos hc]
      exact ih acc
    · rw [unionInner_neg hc]
      obtain ⟨tl, htl⟩ := ih (acc ++ [c])
      exact ⟨[c] ++ tl, by rw [htl, List.append_assoc]⟩

theorem foldl_unionInner_nodup :
    ∀ (h : List String) (acc : List String), acc.Nodup → (h.foldl unionInner acc).Nodup := by
  intro h
  induction h with
  | nil => exact fun _ ha => ha
  | cons c cs ih =>
    intro acc ha
    rw [List.foldl_cons]
    apply ih
    unfold unionInner
    split_ifs with hc
    · exact ha
    · rw [List.nodup_append]
      refine ⟨ha, List.nodup_singleton c, ?_⟩
      intro x hx hxc
      rw [List.mem_singleton] at hxc
      subst hxc
      exact hc hx

theorem union_cols_foldl_mem :
    ∀ (ts : List Table) (acc : List String) (a : String),
      a ∈ ts.foldl (fun acc2 t => t.header.foldl unionInner acc2) acc ↔
        a ∈ acc ∨ ∃ t ∈ ts, a ∈ t.header := by
  intro ts
  induction ts with
  | nil => simp
  | cons t ts2 ih =>
    intro acc a
    rw [List.foldl_cons, ih, foldl_unionInner_mem]
    simp only [List.mem_cons]
    constructor
    · rintro ((h | h) | ⟨t2, ht2, h⟩)
      · exact Or.inl h
      · exact Or.inr ⟨t, Or.inl rfl, h⟩
      · exact Or.inr ⟨t2, Or.inr ht2, h⟩
    · rintro (h | ⟨t2, (rfl | ht2), h⟩)
      · exact Or.inl (Or.inl h)
      · exact Or.inl (Or.inr h)
      · exact Or.inr ⟨t2, ht2, h⟩

theorem union_cols_mem (ts : List Table) (a : String) :
    a ∈ union_cols ts ↔ ∃ t ∈ ts, a ∈ t.header := by
  unfold union_cols
  rw [union_cols_foldl_mem]
  simp

theorem union_cols_foldl_shape :
    ∀ (ts : List Table) (acc : List String),
      ∃ tl, ts.foldl (fun acc2 t => t.header.foldl unionInner acc2) acc = acc ++ tl := by
  intro ts
  induction ts with
  | nil => exact fun acc => ⟨[], by simp⟩
  | cons t ts2 ih =>
    intro acc
    rw [List.foldl_cons]
    obtain ⟨tl1, h1⟩ := foldl_unionInner_shape t.header acc
    obtain ⟨tl2, h2⟩ := ih (acc ++ tl1)
    exact ⟨tl1 ++ tl2, by rw [h1, h2, List.append_assoc]⟩

theorem union_cols_nodup (ts : List Table) : (union_cols ts).Nodup := by
  unfold union_cols
  have hgen : ∀ (ts2 : List Table) (acc : List String), acc.Nodup →
      (ts2.foldl (fun acc2 t => t.header.foldl unionInner acc2) acc).Nodup := by
    intro ts2
    induction ts2 with
    | nil => exact fun _ h => h
    | cons t ts3 ih =>
      intro acc h
      rw [List.foldl_cons]
      exact ih _ (foldl_unionInner_nodup t.header acc h)
  exact hgen ts [] List.nodup_nil

theorem union_cols_take_two (t0 : Table) (rest : List Table)
    (h : t0.header.take 2 = ["SourceFile", "SheetName"]) :
    (union_cols (t0 :: rest)).take 2 = ["SourceFile", "SheetName"] := by
  obtain ⟨h', hh⟩ : ∃ h', t0.header = "SourceFile" :: "SheetName" :: h' := by
    cases hh : t0.header with
    | nil => rw [hh] at h; exact absurd h (by simp)
    | cons a l =>
      cases l with
      | nil => rw [hh] at h; simp [List.take] at h
      | cons b l2 =>
        rw [hh] at h
        simp [List.take] at h
        exact ⟨l2, by rw [h.1, h.2]⟩
  have e1 : unionInner [] "SourceFile" = ["SourceFile"] := by
    unfold unionInner
    rw [if_neg (by decide)]
    rfl
  have e2 : unionInner ["SourceFile"] "SheetName" = ["SourceFile", "SheetName"] := by
    unfold unionInner
    rw [if_neg (by decide)]
    rfl
  unfold union_cols
  rw [List.foldl_cons, hh, List.foldl_cons, List.foldl_cons, e1, e2]
  obtain ⟨tl1, htl1⟩ := foldl_unionInner_shape h' ["SourceFile", "SheetName"]
  rw [htl1]
  obtain ⟨tl2, htl2⟩ := union_cols_foldl_shape rest (["SourceFile", "SheetName"] ++ tl1)
  rw [htl2, List.append_assoc]
  rfl

theorem pair_result_provenance (f : FileData) (s : String) (t : Table)
    (h : pair_result f s = some t) :
    t.header.take 2 = ["SourceFile", "SheetName"] ∧ ∀ r ∈ t.rows, r.take 2 = [f.name, s] := by
  obtain ⟨hs, t0, hr, he, hi⟩ := pair_result_eq_some f s t h
  obtain ⟨hh, hrows⟩ := insert_provenance_ok f.name s t0 t hi
  constructor
  · rw [hh]
    rfl
  · intro r hrmem
    rw [hrows] at hrmem
    obtain ⟨r0, hr0, rfl⟩ := List.mem_map.mp hrmem
    rfl

theorem mem_accumulate_provenance (files : List FileData) (sheets : List String) (t : Table)
    (ht : t ∈ accumulate files sheets) :
    t.header.take 2 = ["SourceFile", "SheetName"] ∧
    ∃ f ∈ files, ∃ s ∈ sheets, ∀ r ∈ t.rows, r.take 2 = [f.name, s] := by
  rw [accumulate_eq, List.mem_flatMap] at ht
  obtain ⟨f, hf, ht2⟩ := ht
  rw [List.mem_filterMap] at ht2
  obtain ⟨s, hs, hps⟩ := ht2
  obtain ⟨hh, hr⟩ := pair_result_provenance f s t hps
  exact ⟨hh, f, hf, s, hs, hr⟩

theorem reindex_row_missing (cols hdr : List String) (r : List String) (c : String)
    (hc : c ∉ hdr) (hlen : r.length ≤ hdr.length) :
    (reindex_row cols hdr r).getD (cols.indexOf c) "-" = "-" := by
  have hfc : r.getD (hdr.indexOf c) "-" = "-" := by
    rw [List.getD_eq_getElem?_getD, List.getElem?_eq_none, Option.getD_none]
    rw [List.indexOf_eq_length.mpr hc]
    exact hlen
  unfold reindex_row
  by_cases hmem : c ∈ cols
  · have hlt : cols.indexOf c < cols.length := List.indexOf_lt_length.mpr hmem
    rw [List.getD_eq_getElem?_getD, List.getElem?_map, List.getElem?_eq_getElem hlt,
      List.getElem_indexOf hlt]
    simpa using hfc
  · rw [List.getD_eq_getElem?_getD, List.getElem?_eq_none]
    · rfl
    · rw [List.length_map, List.indexOf_eq_length.mpr hmem]

theorem foldl_unionInner_fresh :
    ∀ (h acc : List String), h.Nodup → (∀ c ∈ h, c ∉ acc) →
      h.foldl unionInner acc = acc ++ h := by
  intro h
  induction h with
  | nil => intro acc _ _; simp
  | cons c cs ih =>
    intro acc hnd hfresh
    rw [List.nodup_cons] at hnd
    rw [List.foldl_cons, unionInner_neg (hfresh c (List.mem_cons_self c cs))]
    have hf : ∀ c2 ∈ cs, c2 ∉ acc ++ [c] := by
      intro c2 hc2 hmem
      rw [List.mem_append, List.mem_singleton] at hmem
      rcases hmem with hin | rfl
      · exact hfresh c2 (List.mem_cons_of_mem c hc2) hin
      · exact hnd.1 hc2
    rw [ih (acc ++ [c]) hnd.2 hf, List.append_assoc]
    rfl

theorem foldl_unionInner_absorb :
    ∀ (h acc : List String), (∀ c ∈ h, c ∈ acc) → h.foldl unionInner acc = acc := by
  intro h
  induction h with
  | nil => intro acc _; rfl
  | cons c cs ih =>
    intro acc hsub
    rw [List.foldl_cons, unionInner_pos (hsub c (List.mem_cons_self c cs))]
    exact ih acc fun c2 hc2 => hsub c2 (List.mem_cons_of_mem c hc2)

theorem union_cols_same (t0 : Table) (rest : List Table)
    (hnd : t0.header.Nodup) (hall : ∀ t ∈ rest, t.header = t0.header) :
    union_cols (t0 :: rest) = t0.header := by
  unfold union_cols
  rw [List.foldl_cons]
  have h1 : t0.header.foldl unionInner [] = t0.header := by
    have h2 := foldl_unionInner_fresh t0.header [] hnd (by simp)
    simpa using h2
  rw [h1]
  have habs : ∀ ts2 : List Table, (∀ t ∈ ts2, t.header = t0.header) →
      ts2.foldl (fun acc2 t => t.header.foldl unionInner acc2) t0.header = t0.header := by
    intro ts2
    induction ts2 with
    | nil => intro _; rfl
    | cons t ts3 ih2 =>
      intro hall2
      rw [List.foldl_cons, hall2 t (List.mem_cons_self t ts3),
        foldl_unionInner_absorb t0.header t0.header fun c hc => hc]
      exact ih2 fun t2 ht2 => hall2 t2 (List.mem_cons_of_mem t ht2)
  exact habs rest hall

theorem reindex_row_self (hdr : List String) (r : List String)
    (hnd : hdr.Nodup) (hlen : r.length = hdr.length) :
    reindex_row hdr hdr r = r := by
  unfold reindex_row
  apply List.ext_getElem
  · rw [List.length_map, hlen]
  · intro i h1 h2
    rw [List.getElem_map]
    have h3 : i < hdr.length := by
      rw [List.length_map] at h1
      exact h1
    rw [List.indexOf_getElem hnd i h3]
    rw [List.getD_eq_getElem?_getD, List.getElem?_eq_getElem h2, Option.getD_some]

theorem flatMap_congr_mem {α β : Type} :
    ∀ (l : List α) (f g : α → List β), (∀ a ∈ l, f a = g a) → l.flatMap f = l.flatMap g := by
  intro l
  induction l with
  | nil => intro f g _; rfl
  | cons a l2 ih =>
    intro f g h
    rw [List.flatMap_cons, List.flatMap_cons, h a (List.mem_cons_self a l2),
      ih f g fun b hb => h b (List.mem_cons_of_mem a hb)]

theorem concat_tables_ne_noData (ts : List Table) (h : ts ≠ []) :
    concat_tables ts ≠ Except.error noDataMsg := by
  cases ts with
  | nil => exact absurd rfl h
  | cons t0 rest =>
    simp only [concat_tables]
    split_ifs with h1 h2
    · simp
    · intro hc
      injection hc with hc
      exact absurd hc (by decide)
    · simp

theorem concat_tables_ok_of_nodup (ts : List Table) (hne : ts ≠ [])
    (hnd : ∀ t ∈ ts, t.header.Nodup) : ∃ T, concat_tables ts = Except.ok T := by
  cases ts with
  | nil => exact absurd rfl hne
  | cons t0 rest =>
    simp only [concat_tables]
    split_ifs with h1 h2
    · exact ⟨_, rfl⟩
    · exfalso
      unfold hasDupHeader at h2
      rw [List.any_eq_true] at h2
      obtain ⟨t, ht, hb⟩ := h2
      rw [Bool.not_eq_true'] at hb
      rw [decide_eq_false_iff_not] at hb
      exact hb (hnd t ht)
    · exact ⟨_, rfl⟩

theorem concat_tables_of_nodup (ts : List Table) (hne : ts ≠ [])
    (hnd : ∀ t ∈ ts, t.header.Nodup)
    (hrect : ∀ t ∈ ts, ∀ r ∈ t.rows, r.length = t.header.length) :
    concat_tables ts =
      Except.ok { header := union_cols ts
                  rows := ts.flatMap fun t =>
                    t.rows.map (reindex_row (union_cols ts) t.header) } := by
  cases ts with
  | nil => exact absurd rfl hne
  | cons t0 rest =>
    by_cases hsame : same_headers (t0 :: rest) = true
    · rw [concat_tables_fast t0 rest hsame]
      have hall : ∀ t ∈ rest, t.header = t0.header := by
        intro t ht
        unfold same_headers at hsame
        rw [List.all_eq_true] at hsame
        exact eq_of_beq (hsame t ht)
      have hu : union_cols (t0 :: rest) = t0.header :=
        union_cols_same t0 rest (hnd t0 (List.mem_cons_self t0 rest)) hall
      have hrows :
          ((t0 :: rest).flatMap fun t => t.rows.map (reindex_row t0.header t.header)) =
            (t0 :: rest).flatMap Table.rows := by
        apply flatMap_congr_mem
        intro t ht
        have hth : t.header = t0.header := by
          rcases List.mem_cons.mp ht with rfl | ht2
          · rfl
          · exact hall t ht2
        have hid : ∀ r ∈ t.rows, reindex_row t0.header t.header r = r := by
          intro r hr
          rw [hth]
          exact reindex_row_self t0.header r (hnd t0 (List.mem_cons_self t0 rest))
            ((hrect t ht r hr).trans (congrArg List.length hth))
        calc t.rows.map (reindex_row t0.header t.header)
            = t.rows.map id := List.map_congr_left hid
          _ = t.rows := List.map_id t.rows
      rw [hu, hrows]
    · rw [Bool.not_eq_true] at hsame
      have hdup : hasDupHeader (t0 :: rest) = false := by
        unfold hasDupHeader
        rw [← Bool.not_eq_true, List.any_eq_true]
        rintro ⟨t, ht, hb⟩
        rw [Bool.not_eq_true'] at hb
        rw [decide_eq_false_iff_not] at hb
        exact hb (hnd t ht)
      rw [concat_tables_union t0 rest hsame hdup]

/-! ### Claim theorems for the consolidation engine -/

/-- A file whose only sheet loads a small two-column table. -/
def fileA : FileData :=
  ⟨"Jan.xlsx", ["B2B"], fun _ => ReadOutcome.ok ⟨["h1", "h2"], [["1", "2"]]⟩⟩

/-- A file whose only sheet always fails to read. -/
def fileErr : FileData :=
  ⟨"Mar.xlsx", ["B2B"], fun _ => ReadOutcome.err "corrupt"⟩

/-- A file whose only sheet loads a table that already has a column named
SourceFile. -/
def fileClash : FileData :=
  ⟨"Apr.xlsx", ["B2B"], fun _ => ReadOutcome.ok ⟨["SourceFile", "x"], [["a", "b"]]⟩⟩

/-- The marker-path loader output for a file whose header row is
`GSTIN of supplier, A, A, A_1, A_1` with one fully present data row:
`make_unique_columns` on the raw cells followed by `clean_dataframe`
(which re-runs it), exactly as lines 313-318 do.  Its header still
contains the duplicate label `A_1_1`. -/
def tDup : Table :=
  clean_dataframe
    (make_unique_columns
      [some "GSTIN of supplier", some "A", some "A", some "A_1", some "A_1"])
    [[some "1", some "2", some "3", some "4", some "5"]]

/-- A file whose only sheet loads the duplicate-labeled table `tDup`. -/
def fileDup : FileData :=
  ⟨"May.xlsx", ["B2B"], fun _ => ReadOutcome.ok tDup⟩

/-- C1 counterexample: a run accumulating only the duplicate-labeled table
from `fileDup` succeeds through pandas' no-alignment fast path, and its
column list keeps the duplicate label `A_1_1` - it is not the
duplicate-free first-occurrence union the claim describes. -/
theorem consolidate_union_counterexample :
    consolidate_data [fileDup] ["B2B"] =
      Except.ok
        ⟨["SourceFile", "SheetName", "GSTIN of supplier", "A", "A_1", "A_1_1", "A_1_1"],
          [["May.xlsx", "B2B", "1", "2", "3", "4", "5"]]⟩ ∧
    ¬ (["SourceFile", "SheetName", "GSTIN of supplier", "A", "A_1", "A_1_1",
        "A_1_1"] : List String).Nodup ∧
    union_cols (accumulate [fileDup] ["B2B"]) =
      ["SourceFile", "SheetName", "GSTIN of supplier", "A", "A_1", "A_1_1"] := by
  refine ⟨by decide, by decide, by decide⟩

/-- C1 (amended): when at least one table is accumulated and every
accumulated table's column list is duplicate-free (which the C2 bug can
violate), consolidation succeeds and the result's column list is the
first-occurrence union of the accumulated headers (duplicate-free,
containing exactly the accumulated columns), its rows are all accumulated
rows in accumulation order, and a column absent from a row's source
header yields the sentinel "-"; the schema-union example from the spec
computes as stated. -/
theorem consolidate_union_schema :
    (∀ (files : List FileData) (sheets : List String),
      accumulate files sheets ≠ [] →
      (∀ t ∈ accumulate files sheets, t.header.Nodup) →
      (∀ t ∈ accumulate files sheets, ∀ r ∈ t.rows, r.length = t.header.length) →
      consolidate_data files sheets =
        Except.ok { header := union_cols (accumulate files sheets)
                    rows := (accumulate files sheets).flatMap fun t =>
                      t.rows.map
                        (reindex_row (union_cols (accumulate files sheets)) t.header) }) ∧
    (∀ ts : List Table, (union_cols ts).Nodup) ∧
    (∀ (ts : List Table) (c : String), c ∈ union_cols ts ↔ ∃ t ∈ ts, c ∈ t.header) ∧
    (∀ (cols hdr : List String) (r : List String) (c : String),
      c ∉ hdr → r.length ≤ hdr.length →
      (reindex_row cols hdr r).getD (cols.indexOf c) "-" = "-") ∧
    concat_tables [⟨["A", "B"], [["1", "2"]]⟩, ⟨["A", "C"], [["3", "4"]]⟩] =
      Except.ok ⟨["A", "B", "C"], [["1", "2", "-"], ["3", "-", "4"]]⟩ := by
  refine ⟨?_, union_cols_nodup, union_cols_mem, reindex_row_missing, by decide⟩
  intro files sheets hne hnd hrect
  rw [consolidate_eq_concat_of_ne_nil files sheets hne]
  exact concat_tables_of_nodup _ hne hnd hrect

/-- Witness for C1: one accumulated duplicate-free table, consolidation
succeeds with the union-schema result. -/
theorem consolidate_union_schema_witness :
    consolidate_data [fileA] ["B2B"] =
      Except.ok { header := union_cols (accumulate [fileA] ["B2B"])
                  rows := (accumulate [fileA] ["B2B"]).flatMap fun t =>
                    t.rows.map
                      (reindex_row (union_cols (accumulate [fileA] ["B2B"])) t.header) } :=
  consolidate_union_schema.1 [fileA] ["B2B"] (by decide) (by decide) (by decide)

/-- C6 counterexample: with the duplicate-labeled table from `fileDup` and
the differently-shaped table from `fileA` both accumulated, the final
concatenation aborts with the duplicate-label error - an abort that is
not the no-data error and happens with a non-empty accumulator, so the
no-data error is not the only way the engine aborts. -/
theorem consolidate_no_data_counterexample :
    accumulate [fileDup, fileA] ["B2B"] ≠ [] ∧
    consolidate_data [fileDup, fileA] ["B2B"] = Except.error dupErrMsg ∧
    dupErrMsg ≠ noDataMsg := by
  refine ⟨by decide, by decide, by decide⟩

/-- C6 (amended): `consolidate_data` raises the no-data error exactly when
every (file, sheet) pair contributed nothing (skipped because the sheet is
absent, failed, empty, or provenance-collision); when something was
accumulated and every accumulated header is duplicate-free it returns a
table; and every abort is either the no-data error or the final
concatenation's duplicate-label error (reachable via the C2 bug), which
is raised outside the per-pair handlers. -/
theorem consolidate_no_data_spec :
    (∀ (files : List FileData) (sheets : List String),
      consolidate_data files sheets = Except.error noDataMsg ↔
        ∀ f ∈ files, ∀ s ∈ sheets, pair_result f s = none) ∧
    (∀ (files : List FileData) (sheets : List String),
      accumulate files sheets ≠ [] →
      (∀ t ∈ accumulate files sheets, t.header.Nodup) →
      ∃ T, consolidate_data files sheets = Except.ok T) ∧
    (∀ (files : List FileData) (sheets : List String) (e : String),
      consolidate_data files sheets = Except.error e → e = noDataMsg ∨ e = dupErrMsg) := by
  refine ⟨?_, ?_, ?_⟩
  · intro files sheets
    rw [← accumulate_eq_nil_iff]
    by_cases h : accumulate files sheets = []
    · unfold consolidate_data
      rw [if_pos (by rw [h]; rfl)]
      exact ⟨fun _ => h, fun _ => rfl⟩
    · rw [consolidate_eq_concat_of_ne_nil files sheets h]
      exact ⟨fun hc => absurd hc (concat_tables_ne_noData _ h), fun hc => absurd hc h⟩
  · intro files sheets hne hnd
    rw [consolidate_eq_concat_of_ne_nil files sheets hne]
    exact concat_tables_ok_of_nodup _ hne hnd
  · intro files sheets e h
    unfold consolidate_data at h
    by_cases hacc : (accumulate files sheets).isEmpty = true
    · rw [if_pos hacc] at h
      injection h with h
      exact Or.inl h.symm
    · rw [if_neg hacc] at h
      cases hl : accumulate files sheets with
      | nil =>
        rw [hl] at hacc
        exact absurd (rfl : ([] : List Table).isEmpty = true) hacc
      | cons t0 rest =>
        rw [hl] at h
        simp only [concat_tables] at h
        split_ifs at h with h1 h2
        injection h with h
        exact Or.inr h.symm

/-- Witness for C6: a run in which the only file's read always fails and
one selected sheet is absent raises the no-data error. -/
theorem consolidate_no_data_spec_witness :
    consolidate_data [fileErr] ["B2B", "B2C"] = Except.error noDataMsg :=
  (consolidate_no_data_spec.1 [fileErr] ["B2B", "B2C"]).mpr (by decide)

/-- C8: every accumulated table starts with the SourceFile and SheetName
columns, its rows start with the file name and sheet identifier, the
consolidated table therefore starts with those two columns, and the
export-selection logic never lets go of either column. -/
theorem provenance_columns_spec :
    (∀ (files : List FileData) (sheets : List String) (t : Table),
      t ∈ accumulate files sheets →
      t.header.take 2 = ["SourceFile", "SheetName"] ∧
      ∃ f ∈ files, ∃ s ∈ sheets, ∀ r ∈ t.rows, r.take 2 = [f.name, s]) ∧
    (∀ (files : List FileData) (sheets : List String) (T : Table),
      consolidate_data files sheets = Except.ok T →
      T.header.take 2 = ["SourceFile", "SheetName"]) ∧
    (∀ (sel : List String) (col : String) (b : Bool),
      "SourceFile" ∈ sel → "SheetName" ∈ sel →
      "SourceFile" ∈ update_selection sel col b ∧ "SheetName" ∈ update_selection sel col b) ∧
    (∀ (cols sel : List String),
      "SourceFile" ∈ cols → "SourceFile" ∈ sel → "SheetName" ∈ cols → "SheetName" ∈ sel →
      "SourceFile" ∈ export_column_order cols sel ∧
      "SheetName" ∈ export_column_order cols sel) := by
  refine ⟨mem_accumulate_provenance, ?_, ?_, ?_⟩
  · intro files sheets T h
    unfold consolidate_data at h
    by_cases hacc : (accumulate files sheets).isEmpty = true
    · rw [if_pos hacc] at h
      exact absurd h (by simp)
    · rw [if_neg hacc] at h
      cases hl : accumulate files sheets with
      | nil =>
        rw [hl] at hacc
        exact absurd (rfl : ([] : List Table).isEmpty = true) hacc
      | cons t0 rest =>
        rw [hl] at h
        have ht0 : t0 ∈ accumulate files sheets := by
          rw [hl]
          exact List.mem_cons_self t0 rest
        obtain ⟨hh, -⟩ := mem_accumulate_provenance files sheets t0 ht0
        simp only [concat_tables] at h
        split_ifs at h with h1 h2
        · injection h with h
          subst h
          exact hh
        · injection h with h
          subst h
          exact union_cols_take_two t0 rest hh
  · intro sel col b h1 h2
    unfold update_selection
    split_ifs with hA hB hC
    · exact ⟨List.mem_append_left _ h1, List.mem_append_left _ h2⟩
    · exact ⟨h1, h2⟩
    · push_neg at hC
      constructor
      · rw [List.mem_erase_of_ne (fun he => hC.1 he.symm)]
        exact h1
      · rw [List.mem_erase_of_ne (fun he => hC.2 he.symm)]
        exact h2
    · exact ⟨h1, h2⟩
  · intro cols sel h1 h2 h3 h4
    unfold export_column_order
    constructor
    · rw [List.mem_filter]
      exact ⟨h1, decide_eq_true h2⟩
    · rw [List.mem_filter]
      exact ⟨h3, decide_eq_true h4⟩

/-- Witness for C8: the single table accumulated from `fileA` carries the
provenance columns and values. -/
theorem provenance_columns_spec_witness :
    (⟨["SourceFile", "SheetName", "h1", "h2"],
        [["Jan.xlsx", "B2B", "1", "2"]]⟩ : Table).header.take 2 =
      ["SourceFile", "SheetName"] ∧
    ∃ f ∈ [fileA], ∃ s ∈ ["B2B"],
      ∀ r ∈ (⟨["SourceFile", "SheetName", "h1", "h2"],
        [["Jan.xlsx", "B2B", "1", "2"]]⟩ : Table).rows, r.take 2 = [f.name, s] :=
  provenance_columns_spec.1 [fileA] ["B2B"] _ (by decide)

/-- C9: a loaded table whose header already contains SourceFile or
SheetName makes the provenance insertion fail inside the per-pair try
block, so the pair contributes nothing; each pair contributes
independently, so the rest of the run is unaffected. -/
theorem provenance_collision_skipped :
    (∀ (f : FileData) (sheet : String) (t : Table),
      sheet ∈ f.sheets → f.read sheet = ReadOutcome.ok t → table_empty t = false →
      ("SourceFile" ∈ t.header ∨ "SheetName" ∈ t.header) →
      pair_result f sheet = none) ∧
    (∀ (files : List FileData) (sheets : List String),
      accumulate files sheets =
        files.flatMap fun f => sheets.filterMap fun s => pair_result f s) := by
  constructor
  · intro f sheet t hs hr he hcol
    have he2 : ¬(table_empty t = true) := by
      rw [he]
      simp
    rcases hcol with hc | hc
    · simp only [pair_result, if_pos hs, hr, if_neg he2, insert_provenance, if_pos hc]
    · by_cases hc1 : "SourceFile" ∈ t.header
      · simp only [pair_result, if_pos hs, hr, if_neg he2, insert_provenance, if_pos hc1]
      · simp only [pair_result, if_pos hs, hr, if_neg he2, insert_provenance,
          if_neg hc1, if_pos hc]
  · exact accumulate_eq

/-- Witness for C9: the clashing table from `fileClash` is skipped. -/
theorem provenance_collision_skipped_witness :
    pair_result fileClash "B2B" = none :=
  provenance_collision_skipped.1 fileClash "B2B" ⟨["SourceFile", "x"], [["a", "b"]]⟩
    (by decide) (by decide) (by decide) (by decide)

end Conso2B
